import Mathlib

/-!
Verification of the streaming-chat client core of UserMemory-Chat
(`frontend/src/services/api.js` and the `useChat` hook).

The embedding follows the source: the SSE read loop (chunk buffering and
line splitting), the shape-based payload classification, the localStorage
sticky-error ledger, the sidebar list synchronizer, and the `sendMessage`
session state machine of the `useChat` hook.
-/

namespace Chat

/-! ### Stream decoder: chunk buffering and line splitting (api.js 110-121)

The read loop keeps a string `buffer`; on each chunk it appends the decoded
text, splits on `"\n"`, keeps the final piece as the new buffer and
processes the complete lines.  We model text as `List Char`. -/

/-- `buffer.split("\n")` on character lists: JS `String.prototype.split`
with a one-character separator (always returns at least one piece). -/
def splitNl : List Char → List (List Char)
  | [] => [[]]
  | c :: rest =>
    if c = '\n' then [] :: splitNl rest
    else
      match splitNl rest with
      | [] => [[c]]
      | l :: ls => (c :: l) :: ls

/-- All pieces but the last one: the complete lines handed to the
per-line dispatch (`lines` after `buffer = lines.pop()`). -/
def initLines : List (List Char) → List (List Char)
  | [] => []
  | [_] => []
  | l :: l' :: ls => l :: initLines (l' :: ls)

/-- The last piece: the new value of `buffer` (`lines.pop() || ""`). -/
def lastLine : List (List Char) → List Char
  | [] => []
  | [l] => l
  | _ :: l' :: ls => lastLine (l' :: ls)

/-- Inverse of `splitNl`: rejoin pieces with a newline between them. -/
def unsplitNl : List (List Char) → List Char
  | [] => []
  | [l] => l
  | l :: l' :: ls => l ++ '\n' :: unsplitNl (l' :: ls)

/-- One iteration of the read loop: `buffer += chunk; lines = buffer.split("\n");
buffer = lines.pop() || ""`, accumulating the emitted complete lines. -/
def feed (acc : List (List Char) × List Char) (chunk : List Char) :
    List (List Char) × List Char :=
  (acc.1 ++ initLines (splitNl (acc.2 ++ chunk)), lastLine (splitNl (acc.2 ++ chunk)))

/-- The whole read loop over a chunk sequence, starting from an empty
buffer; returns (emitted complete lines, final leftover buffer). -/
def runChunks (chunks : List (List Char)) : List (List Char) × List Char :=
  chunks.foldl feed ([], [])

/-- The complete lines the decoder hands to the per-line dispatch. -/
def decodeLines (chunks : List (List Char)) : List (List Char) :=
  (runChunks chunks).1

theorem splitNl_ne_nil (s : List Char) : splitNl s ≠ [] := by
  induction s with
  | nil => simp [splitNl]
  | cons c rest ih =>
    simp only [splitNl]
    split
    · simp
    · split
      · simp
      · simp

theorem initLines_cons_of_ne_nil (l : List Char) (ls : List (List Char))
    (h : ls ≠ []) : initLines (l :: ls) = l :: initLines ls := by
  cases ls with
  | nil => exact absurd rfl h
  | cons l' ls' => rfl

theorem lastLine_cons_of_ne_nil (l : List Char) (ls : List (List Char))
    (h : ls ≠ []) : lastLine (l :: ls) = lastLine ls := by
  cases ls with
  | nil => exact absurd rfl h
  | cons l' ls' => rfl

theorem unsplitNl_cons_of_ne_nil (l : List Char) (ls : List (List Char))
    (h : ls ≠ []) : unsplitNl (l :: ls) = l ++ '\n' :: unsplitNl ls := by
  cases ls with
  | nil => exact absurd rfl h
  | cons l' ls' => rfl

theorem initLines_append_of_ne_nil (xs ys : List (List Char)) (h : ys ≠ []) :
    initLines (xs ++ ys) = xs ++ initLines ys := by
  induction xs with
  | nil => rfl
  | cons x xs ih =>
    have hne : xs ++ ys ≠ [] := by
      intro hc
      exact h (List.append_eq_nil.mp hc).2
    rw [List.cons_append, initLines_cons_of_ne_nil x (xs ++ ys) hne, ih,
      List.cons_append]

theorem lastLine_append_of_ne_nil (xs ys : List (List Char)) (h : ys ≠ []) :
    lastLine (xs ++ ys) = lastLine ys := by
  induction xs with
  | nil => rfl
  | cons x xs ih =>
    have hne : xs ++ ys ≠ [] := by
      intro hc
      exact h (List.append_eq_nil.mp hc).2
    rw [List.cons_append, lastLine_cons_of_ne_nil x (xs ++ ys) hne, ih]

theorem initLines_append_lastLine (ls : List (List Char)) (h : ls ≠ []) :
    initLines ls ++ [lastLine ls] = ls := by
  induction ls with
  | nil => exact absurd rfl h
  | cons l ls ih =>
    cases ls with
    | nil => rfl
    | cons l' ls' =>
      rw [initLines_cons_of_ne_nil l (l' :: ls') (by simp),
        lastLine_cons_of_ne_nil l (l' :: ls') (by simp), List.cons_append,
        ih (by simp)]

/-- Splitting a concatenation: the lines of `s` except the last, then the
split of the leftover of `s` glued onto `r`. -/
theorem splitNl_append (s r : List Char) :
    splitNl (s ++ r) =
      initLines (splitNl s) ++ splitNl (lastLine (splitNl s) ++ r) := by
  induction s with
  | nil => rfl
  | cons c s ih =>
    by_cases hc : c = '\n'
    · subst hc
      rw [List.cons_append]
      show splitNl ('\n' :: (s ++ r)) = _
      rw [show splitNl ('\n' :: (s ++ r)) = [] :: splitNl (s ++ r) from by
        simp [splitNl], ih]
      rw [show splitNl ('\n' :: s) = [] :: splitNl s from by simp [splitNl]]
      rw [initLines_cons_of_ne_nil [] (splitNl s) (splitNl_ne_nil s),
        lastLine_cons_of_ne_nil [] (splitNl s) (splitNl_ne_nil s),
        List.cons_append]
    · rw [List.cons_append]
      cases hs : splitNl s with
      | nil => exact absurd hs (splitNl_ne_nil s)
      | cons l ls =>
        have hsplit : splitNl (c :: (s ++ r)) =
            match splitNl (s ++ r) with
            | [] => [[c]]
            | l :: ls => (c :: l) :: ls := by
          simp [splitNl, hc]
        have hsplit' : splitNl (c :: s) = (c :: l) :: ls := by
          simp [splitNl, hc, hs]
        cases ls with
        | nil =>
          -- splitNl s = [l] : the whole of s is the leftover
          rw [hsplit, ih, hs]
          show (match splitNl (l ++ r) with
            | [] => [[c]]
            | l' :: ls' => (c :: l') :: ls') = _
          rw [hsplit']
          show _ = splitNl ((c :: l) ++ r)
          rw [List.cons_append]
          rw [show splitNl (c :: (l ++ r)) =
              match splitNl (l ++ r) with
              | [] => [[c]]
              | l' :: ls' => (c :: l') :: ls' from by simp [splitNl, hc]]
        | cons l2 ls2 =>
          rw [hsplit, ih, hs]
          rw [initLines_cons_of_ne_nil l (l2 :: ls2) (by simp),
            lastLine_cons_of_ne_nil l (l2 :: ls2) (by simp)]
          rw [hsplit']
          rw [initLines_cons_of_ne_nil (c :: l) (l2 :: ls2) (by simp),
            lastLine_cons_of_ne_nil (c :: l) (l2 :: ls2) (by simp)]
          rfl

/-- A newline-free text splits into a single piece. -/
theorem splitNl_of_no_newline (s : List Char) (h : '\n' ∉ s) :
    splitNl s = [s] := by
  induction s with
  | nil => rfl
  | cons c rest ih =>
    have hc : c ≠ '\n' := fun hc => h (hc ▸ List.mem_cons_self c rest)
    have hr : '\n' ∉ rest := fun hr => h (List.mem_cons_of_mem c hr)
    simp [splitNl, hc, ih hr]

/-- The leftover buffer after splitting never contains a newline. -/
theorem no_newline_lastLine (s : List Char) : '\n' ∉ lastLine (splitNl s) := by
  induction s with
  | nil => simp [splitNl, lastLine]
  | cons c rest ih =>
    by_cases hc : c = '\n'
    · subst hc
      rw [show splitNl ('\n' :: rest) = [] :: splitNl rest from by simp [splitNl],
        lastLine_cons_of_ne_nil [] (splitNl rest) (splitNl_ne_nil rest)]
      exact ih
    · cases hs : splitNl rest with
      | nil => exact absurd hs (splitNl_ne_nil rest)
      | cons l ls =>
        rw [show splitNl (c :: rest) = (c :: l) :: ls from by
          simp [splitNl, hc, hs]]
        cases ls with
        | nil =>
          rw [hs] at ih
          simp only [lastLine] at ih ⊢
          intro hmem
          rcases List.mem_cons.mp hmem with h1 | h2
          · exact hc h1.symm
          · exact ih h2
        | cons l2 ls2 =>
          rw [lastLine_cons_of_ne_nil (c :: l) (l2 :: ls2) (by simp)]
          rw [hs, lastLine_cons_of_ne_nil l (l2 :: ls2) (by simp)] at ih
          exact ih

theorem unsplitNl_splitNl (s : List Char) : unsplitNl (splitNl s) = s := by
  induction s with
  | nil => rfl
  | cons c rest ih =>
    by_cases hc : c = '\n'
    · subst hc
      rw [show splitNl ('\n' :: rest) = [] :: splitNl rest from by simp [splitNl],
        unsplitNl_cons_of_ne_nil [] (splitNl rest) (splitNl_ne_nil rest), ih]
      rfl
    · cases hs : splitNl rest with
      | nil => exact absurd hs (splitNl_ne_nil rest)
      | cons l ls =>
        rw [show splitNl (c :: rest) = (c :: l) :: ls from by
          simp [splitNl, hc, hs]]
        cases ls with
        | nil =>
          rw [hs] at ih
          simp only [unsplitNl] at ih ⊢
          rw [ih]
        | cons l2 ls2 =>
          rw [unsplitNl_cons_of_ne_nil (c :: l) (l2 :: ls2) (by simp)]
          rw [hs, unsplitNl_cons_of_ne_nil l (l2 :: ls2) (by simp)] at ih
          rw [List.cons_append, ih]

/-- The read loop from any newline-free buffer behaves like one big chunk. -/
theorem foldl_feed_eq (chunks : List (List Char)) :
    ∀ (lines : List (List Char)) (buf : List Char), '\n' ∉ buf →
      chunks.foldl feed (lines, buf) =
        (lines ++ initLines (splitNl (buf ++ chunks.flatten)),
          lastLine (splitNl (buf ++ chunks.flatten))) := by
  induction chunks with
  | nil =>
    intro lines buf hbuf
    simp [splitNl_of_no_newline buf hbuf, initLines, lastLine]
  | cons c cs ih =>
    intro lines buf hbuf
    rw [List.foldl_cons]
    show List.foldl feed (feed (lines, buf) c) cs = _
    rw [show feed (lines, buf) c =
        (lines ++ initLines (splitNl (buf ++ c)), lastLine (splitNl (buf ++ c)))
      from rfl]
    rw [ih _ _ (no_newline_lastLine (buf ++ c))]
    have hd := splitNl_append (buf ++ c) cs.flatten
    rw [List.flatten_cons, ← List.append_assoc, hd,
      initLines_append_of_ne_nil _ _ (splitNl_ne_nil _),
      lastLine_append_of_ne_nil _ _ (splitNl_ne_nil _), List.append_assoc]

/-- The read loop over any chunking equals the read loop over the whole
stream as one chunk. -/
theorem runChunks_eq_join (chunks : List (List Char)) :
    runChunks chunks =
      (initLines (splitNl chunks.flatten), lastLine (splitNl chunks.flatten)) := by
  rw [runChunks, foldl_feed_eq chunks [] [] (by simp)]
  rfl

/-! ### Shape-based payload classification (api.js 127-146)

A parsed `data:` payload is a JSON object; the dispatch looks only at
which fields are present.  `extraKeys` counts any keys other than the five
the dispatch knows about, so `keyCount` is `Object.keys(data).length`. -/

structure Payload where
  conversation_id : Option String
  is_new : Option Bool
  content : Option String
  title : Option String
  message : Option String
  extraKeys : Nat
deriving DecidableEq, Repr

def optCount {α : Type} : Option α → Nat
  | some _ => 1
  | none => 0

/-- `Object.keys(data).length` for the modelled payload. -/
def Payload.keyCount (p : Payload) : Nat :=
  optCount p.conversation_id + optCount p.is_new + optCount p.content +
    optCount p.title + optCount p.message + p.extraKeys

inductive ProtocolEvent where
  | conversation (conversation_id : String) (is_new : Bool)
  | delta (content : String)
  | title (title : String)
  | error (message : String)
  | done
deriving DecidableEq, Repr

/-- The `if/else if` chain of api.js 132-142: classify a parsed payload by
field presence; a payload matching no shape yields no event. -/
def classify (p : Payload) : Option ProtocolEvent :=
  match p.conversation_id with
  | some cid =>
    some (ProtocolEvent.conversation cid
      (match p.is_new with | some b => b | none => false))
  | none =>
    match p.content with
    | some c => some (ProtocolEvent.delta c)
    | none =>
      match p.title with
      | some t => some (ProtocolEvent.title t)
      | none =>
        match p.message with
        | some m => some (ProtocolEvent.error m)
        | none => if p.keyCount = 0 then some ProtocolEvent.done else none

/-- The events produced from a sequence of parsed payloads. -/
def eventsOfPayloads (ps : List Payload) : List ProtocolEvent :=
  ps.filterMap classify

/-- Per-line dispatch of the read loop (api.js 122-147): `event:` lines are
skipped, `data:` lines are parsed (`pj`, `none` on a JSON parse failure,
which is caught and ignored) and classified; anything else is ignored. -/
def lineEvent (pj : List Char → Option Payload) (line : List Char) :
    Option ProtocolEvent :=
  if ("event: ".data).isPrefixOf line then none
  else if ("data: ".data).isPrefixOf line then
    match pj (line.drop 6) with
    | some p => classify p
    | none => none
  else none

/-- The full event sequence the decoder delivers for a chunked stream. -/
def streamEvents (pj : List Char → Option Payload) (chunks : List (List Char)) :
    List ProtocolEvent :=
  (decodeLines chunks).filterMap (lineEvent pj)

/-! ### Sticky error store (useChat 156-191)

`localStorage` under the fixed key `chat_errors` holds a JSON object
mapping conversation id to `{content, timestamp}`.  The stored blob may be
absent, unparseable, or a valid map; a write can fail (quota), which the
source does not catch in `storeError`/`removeError`. -/

structure StoredError where
  content : String
  timestamp : Nat
deriving DecidableEq, Repr

inductive StoredBlob where
  | absent
  | corrupt
  | valid (entries : List (String × StoredError))
deriving DecidableEq, Repr

structure ErrStorage where
  blob : StoredBlob
  writeFails : Bool
deriving DecidableEq, Repr

/-- First entry for a key, mirroring JS object property lookup (keys in the
modelled maps are unique). -/
def lookupErr : List (String × StoredError) → String → Option StoredError
  | [], _ => none
  | e :: rest, k => if e.1 == k then some e.2 else lookupErr rest k

/-- JS object assignment `errors[k] = v`: replace in place, else append. -/
def upsert : List (String × StoredError) → String → StoredError →
    List (String × StoredError)
  | [], k, v => [(k, v)]
  | e :: rest, k, v => if e.1 == k then (k, v) :: rest else e :: upsert rest k v

/-- `getStoredErrors` (useChat 160-168): total, read failures swallowed by
the `try`/`catch` (absent or unparseable blob reads as the empty map). -/
def getStoredErrors (st : ErrStorage) : List (String × StoredError) :=
  match st.blob with
  | StoredBlob.valid m => m
  | _ => []

/-- `localStorage.setItem` on the error key: throws when the write fails. -/
def setItem (st : ErrStorage) (entries : List (String × StoredError)) :
    Except Unit ErrStorage :=
  if st.writeFails then Except.error ()
  else Except.ok { st with blob := StoredBlob.valid entries }

/-- `storeError` (useChat 171-178): read (total), update, then an unguarded
`setItem` whose failure propagates. -/
def storeError (st : ErrStorage) (cid content : String) (now : Nat) :
    Except Unit ErrStorage :=
  setItem st (upsert (getStoredErrors st) cid ⟨content, now⟩)

/-- `removeError` (useChat 181-185): read (total), `delete errors[cid]`,
then an unguarded `setItem` whose failure propagates. -/
def removeError (st : ErrStorage) (cid : String) : Except Unit ErrStorage :=
  setItem st ((getStoredErrors st).filter (fun e => !(e.1 == cid)))

/-- `getErrorForConversation` (useChat 188-191): total; the trailing
`|| null` maps an empty stored content to nothing. -/
def getErrorForConversation (st : ErrStorage) (cid : String) : Option String :=
  match lookupErr (getStoredErrors st) cid with
  | some e => if e.content = "" then none else some e.content
  | none => none

theorem lookupErr_filter_ne (l : List (String × StoredError)) (k : String) :
    lookupErr (l.filter (fun e => !(e.1 == k))) k = none := by
  induction l with
  | nil => rfl
  | cons e rest ih =>
    by_cases he : e.1 == k
    · simp [List.filter, he, ih]
    · simp only [List.filter]
      rw [show (!(e.1 == k)) = true by simp [he]]
      simp only [lookupErr]
      rw [show (e.1 == k) = false by simp_all]
      simpa using ih

/-! ### Conversation session state machine (useChat 193-428) -/

structure Message where
  role : String
  content : String
deriving DecidableEq, Repr

structure Conversation where
  id : Option String
  title : String
deriving DecidableEq, Repr

/-- Concatenation of a list of strings in order (`d1 ++ ... ++ dn`). -/
def joinAll : List String → String
  | [] => ""
  | d :: ds => d ++ joinAll ds

/-- `String.prototype.includes` on character lists. -/
def containsSub (hay needle : List Char) : Bool :=
  match hay with
  | [] => needle.isEmpty
  | _ :: t => needle.isPrefixOf hay || containsSub t needle

def strIncludes (hay needle : String) : Bool :=
  containsSub hay.data needle.data

/-- The quota/limit vocabulary test of useChat 339-344, applied to the
lower-cased error text. -/
def isQuota (msg : String) : Bool :=
  strIncludes msg.toLower "credit" || strIncludes msg.toLower "limit" ||
    strIncludes msg.toLower "quota" || strIncludes msg.toLower "rate limit"

/-- The banner marker prepended to quota-classified errors (useChat 345). -/
def bannerMark : String := "⚠️ Credits Limit Reached\n\n"

/-- The `title` case of useChat 298-314: update the sidebar entry in place
if the id is already listed, otherwise insert a fresh entry at the head. -/
def syncTitle (l : List Conversation) (id : Option String) (t : String) :
    List Conversation :=
  if l.any (fun c => c.id == id) then
    l.map (fun c => if c.id == id then { c with title := t } else c)
  else ⟨id, t⟩ :: l

/-- Process-local session state of the `useChat` hook, plus the persistent
error ledger, a count of transient toast notifications fired and a count of
requests issued. -/
structure SessionState where
  conversations : List Conversation
  messages : List Message
  isLoading : Bool
  streamingContent : String
  currentConversationId : Option String
  storage : ErrStorage
  toasts : Nat
  requests : Nat
deriving DecidableEq, Repr

/-- The mutable locals of one `sendMessage` call (useChat 278-279)
together with the session state they act on. -/
structure CycleState where
  s : SessionState
  newConversationId : Option String
  accumulatedContent : String
deriving DecidableEq, Repr

/-- One decoded event through the `switch` of useChat 283-364.  The `Bool`
records whether a storage write threw out of the handler. -/
def handleEvent (now : Nat) (cs : CycleState) : ProtocolEvent → CycleState × Bool
  | ProtocolEvent.conversation cid _ =>
    ({ cs with newConversationId := some cid,
               s := { cs.s with currentConversationId := some cid } }, false)
  | ProtocolEvent.delta c =>
    ({ cs with accumulatedContent := cs.accumulatedContent ++ c,
               s := { cs.s with
                 streamingContent := cs.accumulatedContent ++ c } }, false)
  | ProtocolEvent.title t =>
    ({ cs with s := { cs.s with
        conversations := syncTitle cs.s.conversations cs.newConversationId t } },
      false)
  | ProtocolEvent.done =>
    if cs.accumulatedContent = "" then
      ({ cs with s := { cs.s with streamingContent := "", isLoading := false } },
        false)
    else
      let s1 := { cs.s with messages :=
        cs.s.messages ++ [Message.mk "model" cs.accumulatedContent] }
      match cs.newConversationId with
      | some cid =>
        if cid = "" then
          ({ cs with s := { s1 with streamingContent := "", isLoading := false } },
            false)
        else
          match removeError s1.storage cid with
          | Except.error _ => ({ cs with s := s1 }, true)
          | Except.ok st =>
            ({ cs with s :=
                { s1 with storage := st, streamingContent := "",
                          isLoading := false } }, false)
      | none =>
        ({ cs with s := { s1 with streamingContent := "", isLoading := false } },
          false)
  | ProtocolEvent.error m =>
    let em := if m = "" then "An error occurred" else m
    let dm := if isQuota em then bannerMark ++ em else em
    match cs.newConversationId with
    | some cid =>
      if cid = "" then
        ({ cs with s := { cs.s with
            messages := cs.s.messages ++ [Message.mk "error" dm],
            streamingContent := "", isLoading := false } }, false)
      else
        match storeError cs.s.storage cid dm now with
        | Except.error _ => (cs, true)
        | Except.ok st =>
          ({ cs with s := { cs.s with
              storage := st,
              messages := cs.s.messages ++ [Message.mk "error" dm],
              streamingContent := "", isLoading := false } }, false)
    | none =>
      ({ cs with s := { cs.s with
          messages := cs.s.messages ++ [Message.mk "error" dm],
          streamingContent := "", isLoading := false } }, false)

/-- Consume decoded events in arrival order; a throw out of the handler
aborts the read loop and surfaces to the `catch` of `sendMessage`. -/
def runEvents (now : Nat) : CycleState → List ProtocolEvent → CycleState × Bool
  | cs, [] => (cs, false)
  | cs, e :: rest =>
    let r := handleEvent now cs e
    if r.2 then (r.1, true) else runEvents now r.1 rest

/-- Outcome of the transport call: a rejected request (non-ok status or
network failure before a stream is established), or an established stream
whose decoded events are the given list. -/
inductive Transport where
  | failure
  | stream (events : List ProtocolEvent)

/-- The `catch` block of useChat 366-375: one transient toast, reset the
loading flag and streaming buffer, drop the last transcript entry. -/
def catchRecover (s : SessionState) : SessionState :=
  { s with toasts := s.toasts + 1, isLoading := false, streamingContent := "",
           messages := s.messages.dropLast }

/-- `sendMessage` (useChat 268-378): the guard, the optimistic append, the
request, the event loop and the `catch`. -/
def sendMessage (now : Nat) (s : SessionState) (content : String)
    (t : Transport) : SessionState :=
  if s.isLoading then s
  else
    let s1 := { s with messages := s.messages ++ [Message.mk "user" content],
                       isLoading := true, streamingContent := "",
                       requests := s.requests + 1 }
    match t with
    | Transport.failure => catchRecover s1
    | Transport.stream events =>
      let r := runEvents now ⟨s1, s1.currentConversationId, ""⟩ events
      if r.2 then catchRecover r.1.s else r.1.s

/-! ### Supporting lemmas -/

theorem syncTitle_any (l : List Conversation) (id : Option String) (t : String) :
    (syncTitle l id t).any (fun c => c.id == id) = true := by
  by_cases h : l.any (fun c => c.id == id)
  · simp only [syncTitle, if_pos h]
    rw [List.any_map]
    rw [show ((fun c : Conversation => c.id == id) ∘
        fun c => if c.id == id then { c with title := t } else c) =
        fun c : Conversation => c.id == id from by
      funext c
      by_cases hc : c.id = id <;> simp [hc]]
    exact h
  · simp [syncTitle, h]

theorem map_title_fixed (L : List Conversation) (id : Option String)
    (t : String) (h : ∀ c ∈ L, c.id = id → c.title = t) :
    L.map (fun c => if c.id == id then { c with title := t } else c) = L := by
  induction L with
  | nil => rfl
  | cons c rest ih =>
    have hhead : (if c.id == id then { c with title := t } else c) = c := by
      by_cases hc : c.id = id
      · have ht := h c (List.mem_cons_self c rest) hc
        cases c
        simp_all
      · simp [hc]
    rw [List.map_cons, hhead,
      ih (fun x hx hid => h x (List.mem_cons_of_mem c hx) hid)]

theorem syncTitle_title_fixed (l : List Conversation) (id : Option String)
    (t : String) : ∀ c ∈ syncTitle l id t, c.id = id → c.title = t := by
  intro c hc hid
  by_cases h : l.any (fun c => c.id == id) = true
  · simp only [syncTitle, if_pos h] at hc
    obtain ⟨a, _, rfl⟩ := List.mem_map.mp hc
    by_cases ha : a.id = id
    · simp [ha]
    · rw [show ((if a.id == id then { a with title := t } else a)) = a from by
        simp [ha]] at hid
      exact absurd hid ha
  · have h' : l.any (fun c => c.id == id) = false := by simpa using h
    simp only [syncTitle, h', Bool.false_eq_true, if_false] at hc
    rcases List.mem_cons.mp hc with rfl | hmem
    · rfl
    · exfalso
      have hall : ∀ x ∈ l, (x.id == id) = false := by
        simpa [List.any_eq_false] using h'
      have := hall c hmem
      simp [hid] at this

theorem syncTitle_length_of_any (L : List Conversation) (id : Option String)
    (t' : String) (h : L.any (fun c => c.id == id) = true) :
    (syncTitle L id t').length = L.length := by
  simp [syncTitle, h]

theorem sendMessage_loading_skip (now : Nat) (s : SessionState)
    (content : String) (t : Transport) (h : s.isLoading = true) :
    sendMessage now s content t = s := by
  simp [sendMessage, h]

/-! ### Claims -/

/-- C4: while `loading` is true an incoming send request is a no-op — no
request is issued and the whole session state (transcript, buffer, active
id, counters) is unchanged. -/
theorem send_while_loading_noop (now : Nat) (s : SessionState)
    (content : String) (t : Transport) (h : s.isLoading = true) :
    sendMessage now s content t = s :=
  sendMessage_loading_skip now s content t h

theorem send_while_loading_noop_witness :
    sendMessage 0 ⟨[], [], true, "", none, ⟨StoredBlob.absent, false⟩, 0, 0⟩
        "x" Transport.failure
      = ⟨[], [], true, "", none, ⟨StoredBlob.absent, false⟩, 0, 0⟩ :=
  send_while_loading_noop 0 _ "x" Transport.failure rfl

/-- C3: a transport-level failure rolls back the optimistic user message
(the transcript returns to its pre-send value), fires exactly one transient
notification, writes no sticky error, and returns the session to Idle. -/
theorem transport_failure_rollback (now : Nat) (s : SessionState)
    (content : String) (h : s.isLoading = false) :
    (sendMessage now s content Transport.failure).messages = s.messages
    ∧ (sendMessage now s content Transport.failure).toasts = s.toasts + 1
    ∧ (sendMessage now s content Transport.failure).storage = s.storage
    ∧ (sendMessage now s content Transport.failure).isLoading = false
    ∧ (sendMessage now s content Transport.failure).streamingContent = "" := by
  simp [sendMessage, h, catchRecover]

theorem transport_failure_rollback_witness :
    (sendMessage 0 ⟨[], [⟨"user", "old"⟩], false, "", some "c1",
        ⟨StoredBlob.absent, false⟩, 0, 0⟩ "hello" Transport.failure).messages
      = [⟨"user", "old"⟩]
    ∧ (sendMessage 0 ⟨[], [⟨"user", "old"⟩], false, "", some "c1",
        ⟨StoredBlob.absent, false⟩, 0, 0⟩ "hello" Transport.failure).toasts = 0 + 1
    ∧ (sendMessage 0 ⟨[], [⟨"user", "old"⟩], false, "", some "c1",
        ⟨StoredBlob.absent, false⟩, 0, 0⟩ "hello" Transport.failure).storage
      = ⟨StoredBlob.absent, false⟩
    ∧ (sendMessage 0 ⟨[], [⟨"user", "old"⟩], false, "", some "c1",
        ⟨StoredBlob.absent, false⟩, 0, 0⟩ "hello" Transport.failure).isLoading = false
    ∧ (sendMessage 0 ⟨[], [⟨"user", "old"⟩], false, "", some "c1",
        ⟨StoredBlob.absent, false⟩, 0, 0⟩ "hello" Transport.failure).streamingContent
      = "" :=
  transport_failure_rollback 0 _ "hello" rfl

/-- C9 counterexample: `storeError` (the store's `put`) does not return
normally when the underlying persistence write fails — the unguarded
`localStorage.setItem` failure propagates to the caller. -/
theorem sticky_store_put_raises :
    storeError ⟨StoredBlob.absent, true⟩ "c1" "boom" 0 = Except.error () := rfl

/-- C9 amended: reads are total (a corrupt or missing blob is swallowed to
the empty map, so `get` never fails), but `put` and `remove` succeed
exactly when the underlying write succeeds and propagate its failure. -/
theorem sticky_store_failure_modes :
    (∀ (w : Bool) (cid : String),
        getErrorForConversation ⟨StoredBlob.corrupt, w⟩ cid = none)
    ∧ (∀ (w : Bool) (cid : String),
        getErrorForConversation ⟨StoredBlob.absent, w⟩ cid = none)
    ∧ (∀ (st : ErrStorage) (cid c : String) (ts : Nat), st.writeFails = true →
        storeError st cid c ts = Except.error ())
    ∧ (∀ (st : ErrStorage) (cid c : String) (ts : Nat), st.writeFails = false →
        storeError st cid c ts = Except.ok
          ⟨StoredBlob.valid (upsert (getStoredErrors st) cid ⟨c, ts⟩), false⟩)
    ∧ (∀ (st : ErrStorage) (cid : String), st.writeFails = true →
        removeError st cid = Except.error ())
    ∧ (∀ (st : ErrStorage) (cid : String), st.writeFails = false →
        removeError st cid = Except.ok ⟨StoredBlob.valid
          ((getStoredErrors st).filter (fun e => !(e.1 == cid))), false⟩) := by
  refine ⟨fun w cid => rfl, fun w cid => rfl, ?_, ?_, ?_, ?_⟩
  · intro st cid c ts h
    simp [storeError, setItem, h]
  · intro st cid c ts h
    cases st
    simp_all [storeError, setItem]
  · intro st cid h
    simp [removeError, setItem, h]
  · intro st cid h
    cases st
    simp_all [removeError, setItem]

theorem sticky_store_failure_modes_witness :
    storeError ⟨StoredBlob.valid [], false⟩ "c1" "x" 3
      = Except.ok ⟨StoredBlob.valid [("c1", ⟨"x", 3⟩)], false⟩ :=
  sticky_store_failure_modes.2.2.2.1 ⟨StoredBlob.valid [], false⟩ "c1" "x" 3 rfl

/-- C7: the list synchronizer updates an existing id's title in place with
the id order unchanged, inserts an unknown id exactly once at the head, and
is idempotent, so repeated calls never insert a second entry. -/
theorem title_sync_contract :
    (∀ (l : List Conversation) (id : Option String) (t : String),
        l.any (fun c => c.id == id) = true →
          syncTitle l id t =
            l.map (fun c => if c.id == id then { c with title := t } else c)
          ∧ (syncTitle l id t).map Conversation.id = l.map Conversation.id)
    ∧ (∀ (l : List Conversation) (id : Option String) (t : String),
        l.any (fun c => c.id == id) = false → syncTitle l id t = ⟨id, t⟩ :: l)
    ∧ (∀ (l : List Conversation) (id : Option String) (t : String),
        syncTitle (syncTitle l id t) id t = syncTitle l id t)
    ∧ (∀ (l : List Conversation) (id : Option String) (t t' : String),
        (syncTitle (syncTitle l id t) id t').length = (syncTitle l id t).length) := by
  refine ⟨?_, ?_, ?_, ?_⟩
  · intro l id t h
    refine ⟨by simp [syncTitle, h], ?_⟩
    simp only [syncTitle, if_pos h, List.map_map]
    congr 1
    funext c
    by_cases hc : c.id = id <;> simp [hc]
  · intro l id t h
    simp [syncTitle, h]
  · intro l id t
    have hfix := syncTitle_title_fixed l id t
    have hany := syncTitle_any l id t
    generalize hL : syncTitle l id t = L
    rw [hL] at hany hfix
    simp only [syncTitle]
    rw [if_pos hany]
    exact map_title_fixed L id t hfix
  · intro l id t t'
    exact syncTitle_length_of_any _ id t' (syncTitle_any l id t)

theorem title_sync_contract_witness :
    (syncTitle [⟨some "a", "x"⟩] (some "a") "t"
        = [⟨some "a", "x"⟩].map (fun c =>
            if c.id == some "a" then { c with title := "t" } else c)
      ∧ (syncTitle [⟨some "a", "x"⟩] (some "a") "t").map Conversation.id
        = [Conversation.mk (some "a") "x"].map Conversation.id)
    ∧ syncTitle [] (some "a") "t" = [⟨some "a", "t"⟩] :=
  ⟨title_sync_contract.1 [⟨some "a", "x"⟩] (some "a") "t" (by decide),
   title_sync_contract.2.1 [] (some "a") "t" rfl⟩

/-- C5: the decoder classifies a parsed payload by field presence in the
exact precedence order conversation-id, content, title, message, empty
payload, and a payload matching no shape yields no event and does not
abort the stream (the surrounding events are still delivered). -/
theorem classify_precedence :
    (∀ (p : Payload) (cid : String), p.conversation_id = some cid →
        classify p = some (ProtocolEvent.conversation cid
          (match p.is_new with | some b => b | none => false)))
    ∧ (∀ (p : Payload) (c : String), p.conversation_id = none →
        p.content = some c → classify p = some (ProtocolEvent.delta c))
    ∧ (∀ (p : Payload) (t : String), p.conversation_id = none →
        p.content = none → p.title = some t →
        classify p = some (ProtocolEvent.title t))
    ∧ (∀ (p : Payload) (m : String), p.conversation_id = none →
        p.content = none → p.title = none → p.message = some m →
        classify p = some (ProtocolEvent.error m))
    ∧ (∀ p : Payload, p.keyCount = 0 → classify p = some ProtocolEvent.done)
    ∧ (∀ p : Payload, p.conversation_id = none → p.content = none →
        p.title = none → p.message = none → p.keyCount ≠ 0 → classify p = none)
    ∧ (∀ (a b : List Payload) (p : Payload), classify p = none →
        eventsOfPayloads (a ++ p :: b) = eventsOfPayloads a ++ eventsOfPayloads b) := by
  refine ⟨?_, ?_, ?_, ?_, ?_, ?_, ?_⟩
  · intro p cid h
    simp [classify, h]
  · intro p c h1 h2
    simp [classify, h1, h2]
  · intro p t h1 h2 h3
    simp [classify, h1, h2, h3]
  · intro p m h1 h2 h3 h4
    simp [classify, h1, h2, h3, h4]
  · intro p h
    cases p with
    | mk cid isn c t m ek =>
      cases cid <;> cases isn <;> cases c <;> cases t <;> cases m <;>
        simp_all [Payload.keyCount, optCount, classify]
  · intro p h1 h2 h3 h4 h5
    simp [classify, h1, h2, h3, h4, h5]
  · intro a b p h
    simp [eventsOfPayloads, List.filterMap_append, List.filterMap_cons, h]

theorem classify_precedence_witness :
    classify ⟨some "x", some true, some "c", none, none, 0⟩
      = some (ProtocolEvent.conversation "x" true)
    ∧ classify ⟨none, some true, none, none, none, 0⟩ = none
    ∧ eventsOfPayloads [⟨none, none, some "d", none, none, 0⟩,
        ⟨none, some true, none, none, none, 0⟩,
        ⟨none, none, none, none, none, 0⟩]
      = eventsOfPayloads [⟨none, none, some "d", none, none, 0⟩]
        ++ eventsOfPayloads [⟨none, none, none, none, none, 0⟩] :=
  ⟨classify_precedence.1 ⟨some "x", some true, some "c", none, none, 0⟩ "x" rfl,
   classify_precedence.2.2.2.2.2.1 ⟨none, some true, none, none, none, 0⟩
     rfl rfl rfl rfl (by decide),
   classify_precedence.2.2.2.2.2.2 [⟨none, none, some "d", none, none, 0⟩]
     [⟨none, none, none, none, none, 0⟩] ⟨none, some true, none, none, none, 0⟩
     (classify_precedence.2.2.2.2.2.1 ⟨none, some true, none, none, none, 0⟩
       rfl rfl rfl rfl (by decide))⟩

/-- C6: for every text stream and every way of splitting it into chunks,
the decoder delivers the same event sequence as for the unsplit stream —
a record split across chunk boundaries is reconstructed by buffering — and
no bytes are lost or duplicated: the emitted lines rejoined with the final
buffer reproduce the stream exactly. -/
theorem chunked_decode_invariant (pj : List Char → Option Payload)
    (chunks : List (List Char)) :
    streamEvents pj chunks = streamEvents pj [chunks.flatten]
    ∧ unsplitNl ((runChunks chunks).1 ++ [(runChunks chunks).2])
      = chunks.flatten := by
  constructor
  · unfold streamEvents decodeLines
    rw [runChunks_eq_join,
      show runChunks [chunks.flatten] =
        (initLines (splitNl chunks.flatten), lastLine (splitNl chunks.flatten))
      from by rw [runChunks_eq_join]; simp]
  · rw [runChunks_eq_join]
    simp only
    rw [initLines_append_lastLine _ (splitNl_ne_nil _), unsplitNl_splitNl]

/-! ### Session-machine evaluation lemmas -/

theorem runEvents_delta_acc (now : Nat) (ds : List String) :
    ∀ (cs : CycleState) (rest : List ProtocolEvent),
      cs.s.streamingContent = cs.accumulatedContent →
      runEvents now cs (ds.map ProtocolEvent.delta ++ rest) =
        runEvents now
          { cs with
            accumulatedContent := cs.accumulatedContent ++ joinAll ds,
            s := { cs.s with
              streamingContent := cs.accumulatedContent ++ joinAll ds } }
          rest := by
  induction ds with
  | nil =>
    intro cs rest h
    simp only [List.map_nil, List.nil_append, joinAll, String.append_empty]
    congr 1
    cases cs with
    | mk s nid acc =>
      cases s
      simp_all
  | cons d ds ih =>
    intro cs rest h
    have step : runEvents now cs
        (ProtocolEvent.delta d :: (ds.map ProtocolEvent.delta ++ rest)) =
        runEvents now
          { cs with accumulatedContent := cs.accumulatedContent ++ d,
                    s := { cs.s with
                      streamingContent := cs.accumulatedContent ++ d } }
          (ds.map ProtocolEvent.delta ++ rest) := rfl
    rw [List.map_cons, List.cons_append, step]
    refine Eq.trans (ih _ rest ?_) ?_
    · rfl
    · congr 1
      simp [joinAll, String.append_assoc]

theorem handleEvent_done_projections (now : Nat) (cs : CycleState)
    (h : cs.s.storage.writeFails = false) :
    (handleEvent now cs ProtocolEvent.done).2 = false
    ∧ (handleEvent now cs ProtocolEvent.done).1.s.messages =
        cs.s.messages ++ (if cs.accumulatedContent = "" then []
          else [Message.mk "model" cs.accumulatedContent])
    ∧ (handleEvent now cs ProtocolEvent.done).1.s.streamingContent = ""
    ∧ (handleEvent now cs ProtocolEvent.done).1.s.isLoading = false := by
  by_cases hacc : cs.accumulatedContent = ""
  · simp [handleEvent, hacc]
  · cases hn : cs.newConversationId with
    | none => simp [handleEvent, hacc, hn]
    | some cid =>
      by_cases hc : cid = ""
      · simp [handleEvent, hacc, hn, hc]
      · have hrm : removeError cs.s.storage cid = Except.ok
            (ErrStorage.mk (StoredBlob.valid
              ((getStoredErrors cs.s.storage).filter (fun e => !(e.1 == cid))))
              false) := by
          simp [removeError, setItem, h]
        simp [handleEvent, hacc, hn, hc, hrm]

theorem handleEvent_done_storage (now : Nat) (cs : CycleState) (cid : String)
    (h : cs.s.storage.writeFails = false) (hacc : cs.accumulatedContent ≠ "")
    (hn : cs.newConversationId = some cid) (hc : cid ≠ "") :
    (handleEvent now cs ProtocolEvent.done).1.s.storage =
      ErrStorage.mk (StoredBlob.valid
        ((getStoredErrors cs.s.storage).filter (fun e => !(e.1 == cid))))
        false := by
  have hrm : removeError cs.s.storage cid = Except.ok
      (ErrStorage.mk (StoredBlob.valid
        ((getStoredErrors cs.s.storage).filter (fun e => !(e.1 == cid))))
        false) := by
    simp [removeError, setItem, h]
  simp [handleEvent, hacc, hn, hc, hrm]

theorem runEvents_single_done (now : Nat) (cs : CycleState)
    (h : (handleEvent now cs ProtocolEvent.done).2 = false) :
    runEvents now cs [ProtocolEvent.done] =
      ((handleEvent now cs ProtocolEvent.done).1, false) := by
  simp [runEvents, h]

theorem runEvents_deltas_done (now : Nat) (ds : List String) (cs : CycleState)
    (hsc : cs.s.streamingContent = cs.accumulatedContent)
    (hw : cs.s.storage.writeFails = false) :
    (runEvents now cs (ds.map ProtocolEvent.delta ++ [ProtocolEvent.done])).2
      = false
    ∧ (runEvents now cs
          (ds.map ProtocolEvent.delta ++ [ProtocolEvent.done])).1.s.messages
      = cs.s.messages ++
          (if cs.accumulatedContent ++ joinAll ds = "" then []
           else [Message.mk "model" (cs.accumulatedContent ++ joinAll ds)])
    ∧ (runEvents now cs
          (ds.map ProtocolEvent.delta ++ [ProtocolEvent.done])).1.s.streamingContent
      = ""
    ∧ (runEvents now cs
          (ds.map ProtocolEvent.delta ++ [ProtocolEvent.done])).1.s.isLoading
      = false := by
  rw [runEvents_delta_acc now ds cs [ProtocolEvent.done] hsc]
  have hdone := handleEvent_done_projections now
    { cs with
      accumulatedContent := cs.accumulatedContent ++ joinAll ds,
      s := { cs.s with
        streamingContent := cs.accumulatedContent ++ joinAll ds } }
    (by simpa using hw)
  rw [runEvents_single_done now _ hdone.1]
  refine ⟨rfl, ?_, hdone.2.2.1, hdone.2.2.2⟩
  rw [hdone.2.1]

/-- C1: a cycle of `delta` events followed by `done` commits exactly the
in-order concatenation of the delta contents as one `model` message — and
only when that concatenation is non-empty — after which the streaming
buffer is empty and the session is back to Idle. -/
theorem delta_concat_committed (now : Nat) (s : SessionState)
    (content : String) (ds : List String) (h1 : s.isLoading = false)
    (h2 : s.storage.writeFails = false) :
    (sendMessage now s content (Transport.stream
        (ds.map ProtocolEvent.delta ++ [ProtocolEvent.done]))).messages
      = (s.messages ++ [Message.mk "user" content]) ++
          (if joinAll ds = "" then [] else [Message.mk "model" (joinAll ds)])
    ∧ (sendMessage now s content (Transport.stream
        (ds.map ProtocolEvent.delta ++ [ProtocolEvent.done]))).streamingContent
      = ""
    ∧ (sendMessage now s content (Transport.stream
        (ds.map ProtocolEvent.delta ++ [ProtocolEvent.done]))).isLoading
      = false := by
  have hrun := runEvents_deltas_done now ds
    ⟨⟨s.conversations, s.messages ++ [Message.mk "user" content], true, "",
      s.currentConversationId, s.storage, s.toasts, s.requests + 1⟩,
      s.currentConversationId, ""⟩ rfl h2
  refine ⟨?_, ?_, ?_⟩ <;>
    simp [sendMessage, h1, hrun.1, hrun.2.1, hrun.2.2.1, hrun.2.2.2,
      String.empty_append]

theorem delta_concat_committed_witness :
    (sendMessage 0 (⟨[], [], false, "", some "c1",
        ⟨StoredBlob.valid [], false⟩, 0, 0⟩ : SessionState) "hi"
        (Transport.stream
          (["ab", "c"].map ProtocolEvent.delta ++ [ProtocolEvent.done]))).messages
      = (([] : List Message) ++ [Message.mk "user" "hi"]) ++
          (if joinAll ["ab", "c"] = "" then []
           else [Message.mk "model" (joinAll ["ab", "c"])])
    ∧ (sendMessage 0 (⟨[], [], false, "", some "c1",
        ⟨StoredBlob.valid [], false⟩, 0, 0⟩ : SessionState) "hi"
        (Transport.stream
          (["ab", "c"].map ProtocolEvent.delta ++ [ProtocolEvent.done]))).streamingContent
      = ""
    ∧ (sendMessage 0 (⟨[], [], false, "", some "c1",
        ⟨StoredBlob.valid [], false⟩, 0, 0⟩ : SessionState) "hi"
        (Transport.stream
          (["ab", "c"].map ProtocolEvent.delta ++ [ProtocolEvent.done]))).isLoading
      = false :=
  delta_concat_committed 0 _ "hi" ["ab", "c"] rfl rfl

/-- C2 counterexample: on the concrete state whose sticky store holds
`boom` for conversation `c1`, a send-cycle consisting of a bare `done`
(no delta content) reaches the successful terminal state — loading returns
to false — yet the sticky entry for `c1` is NOT cleared, because
`removeError` is only called inside `if (accumulatedContent)`. -/
theorem done_cycle_sticky_not_cleared :
    (sendMessage 0 (⟨[], [], false, "", some "c1",
        ⟨StoredBlob.valid [("c1", ⟨"boom", 5⟩)], false⟩, 0, 0⟩ : SessionState)
        "hi" (Transport.stream [ProtocolEvent.done])).isLoading = false
    ∧ getErrorForConversation
        (sendMessage 0 (⟨[], [], false, "", some "c1",
          ⟨StoredBlob.valid [("c1", ⟨"boom", 5⟩)], false⟩, 0, 0⟩ : SessionState)
          "hi" (Transport.stream [ProtocolEvent.done])).storage "c1"
      = some "boom" := by
  exact ⟨rfl, rfl⟩

theorem runEvents_deltas_done_storage (now : Nat) (ds : List String)
    (cs : CycleState) (cid : String)
    (hsc : cs.s.streamingContent = cs.accumulatedContent)
    (hw : cs.s.storage.writeFails = false)
    (hacc : cs.accumulatedContent ++ joinAll ds ≠ "")
    (hn : cs.newConversationId = some cid) (hc : cid ≠ "") :
    (runEvents now cs
        (ds.map ProtocolEvent.delta ++ [ProtocolEvent.done])).1.s.storage
      = ErrStorage.mk (StoredBlob.valid
          ((getStoredErrors cs.s.storage).filter (fun e => !(e.1 == cid))))
          false := by
  rw [runEvents_delta_acc now ds cs [ProtocolEvent.done] hsc]
  have hdone := handleEvent_done_projections now
    { cs with
      accumulatedContent := cs.accumulatedContent ++ joinAll ds,
      s := { cs.s with
        streamingContent := cs.accumulatedContent ++ joinAll ds } }
    (by simpa using hw)
  rw [runEvents_single_done now _ hdone.1]
  have hst := handleEvent_done_storage now
    { cs with
      accumulatedContent := cs.accumulatedContent ++ joinAll ds,
      s := { cs.s with
        streamingContent := cs.accumulatedContent ++ joinAll ds } }
    cid (by simpa using hw) (by simpa using hacc) (by simpa using hn) hc
  simpa using hst

/-- C2 amended: the sticky entry for the cycle's conversation is cleared on
`done` only when the cycle streamed non-empty delta content (and the
conversation id is a non-empty string); a successful cycle that streamed
nothing leaves the sticky error in place. -/
theorem done_with_content_clears_sticky (now : Nat) (s : SessionState)
    (content : String) (ds : List String) (cid : String)
    (h1 : s.isLoading = false) (h2 : s.storage.writeFails = false)
    (h3 : s.currentConversationId = some cid) (h4 : cid ≠ "")
    (h5 : joinAll ds ≠ "") :
    getErrorForConversation
      (sendMessage now s content (Transport.stream
        (ds.map ProtocolEvent.delta ++ [ProtocolEvent.done]))).storage cid
      = none := by
  have hrun := runEvents_deltas_done now ds
    ⟨⟨s.conversations, s.messages ++ [Message.mk "user" content], true, "",
      s.currentConversationId, s.storage, s.toasts, s.requests + 1⟩,
      s.currentConversationId, ""⟩ rfl h2
  have hsto := runEvents_deltas_done_storage now ds
    ⟨⟨s.conversations, s.messages ++ [Message.mk "user" content], true, "",
      s.currentConversationId, s.storage, s.toasts, s.requests + 1⟩,
      s.currentConversationId, ""⟩ cid rfl h2
    (by simpa [String.empty_append] using h5) (by simpa using h3) h4
  simp [sendMessage, h1, hrun.1, hsto, getErrorForConversation,
    getStoredErrors, lookupErr_filter_ne]

theorem done_with_content_clears_sticky_witness :
    getErrorForConversation
      (sendMessage 0 (⟨[], [], false, "", some "c1",
          ⟨StoredBlob.valid [("c1", ⟨"boom", 5⟩)], false⟩, 0, 0⟩ : SessionState)
        "hi" (Transport.stream
          (["ok"].map ProtocolEvent.delta ++ [ProtocolEvent.done]))).storage "c1"
      = none :=
  done_with_content_clears_sticky 0 _ "hi" ["ok"] "c1" rfl rfl rfl
    (by decide) (by decide)

/-- C8: a stream-level error whose lower-cased text contains one of the
quota terms is stored with the banner marker prefixed, otherwise verbatim,
and the identical content is both appended to the transcript as an
`error`-role message and written to the sticky store for the cycle's
conversation. -/
theorem stream_error_classified_and_stored (now : Nat) (s : SessionState)
    (content m cid : String) (h1 : s.isLoading = false)
    (h2 : s.storage.writeFails = false)
    (h3 : s.currentConversationId = some cid) (h4 : cid ≠ "") (h5 : m ≠ "") :
    (sendMessage now s content
        (Transport.stream [ProtocolEvent.error m])).messages
      = s.messages ++ [Message.mk "user" content,
          Message.mk "error" (if isQuota m then bannerMark ++ m else m)]
    ∧ getStoredErrors (sendMessage now s content
        (Transport.stream [ProtocolEvent.error m])).storage
      = upsert (getStoredErrors s.storage) cid
          ⟨if isQuota m then bannerMark ++ m else m, now⟩ := by
  constructor <;>
    simp [sendMessage, h1, runEvents, handleEvent, h3, h4, h5,
      storeError, setItem, h2, getStoredErrors]

theorem stream_error_classified_and_stored_witness :
    (sendMessage 7 (⟨[], [], false, "", some "c1",
        ⟨StoredBlob.valid [], false⟩, 0, 0⟩ : SessionState) "hi"
        (Transport.stream [ProtocolEvent.error "rate limit exceeded"])).messages
      = ([] : List Message) ++ [Message.mk "user" "hi",
          Message.mk "error" (if isQuota "rate limit exceeded"
            then bannerMark ++ "rate limit exceeded"
            else "rate limit exceeded")]
    ∧ getStoredErrors (sendMessage 7 (⟨[], [], false, "", some "c1",
        ⟨StoredBlob.valid [], false⟩, 0, 0⟩ : SessionState) "hi"
        (Transport.stream [ProtocolEvent.error "rate limit exceeded"])).storage
      = upsert (getStoredErrors ⟨StoredBlob.valid [], false⟩) "c1"
          ⟨if isQuota "rate limit exceeded"
            then bannerMark ++ "rate limit exceeded"
            else "rate limit exceeded", 7⟩ :=
  stream_error_classified_and_stored 7 _ "hi" "rate limit exceeded" "c1"
    rfl rfl rfl (by decide) (by decide)

/-- Terminal protocol events: the two that reset the loading flag. -/
def isTerminal : ProtocolEvent → Bool
  | ProtocolEvent.done => true
  | ProtocolEvent.error _ => true
  | _ => false

theorem nonterminal_step (now : Nat) (cs : CycleState) (e : ProtocolEvent)
    (h : isTerminal e = false) :
    (handleEvent now cs e).2 = false
    ∧ (handleEvent now cs e).1.s.messages = cs.s.messages
    ∧ (handleEvent now cs e).1.s.isLoading = cs.s.isLoading := by
  cases e <;> simp_all [handleEvent, isTerminal]

theorem nonterminal_run (now : Nat) :
    ∀ (events : List ProtocolEvent) (cs : CycleState),
      (∀ e ∈ events, isTerminal e = false) →
      (runEvents now cs events).2 = false
      ∧ (runEvents now cs events).1.s.messages = cs.s.messages
      ∧ (runEvents now cs events).1.s.isLoading = cs.s.isLoading := by
  intro events
  induction events with
  | nil =>
    intro cs h
    exact ⟨rfl, rfl, rfl⟩
  | cons e rest ih =>
    intro cs h
    have he := nonterminal_step now cs e (h e (List.mem_cons_self e rest))
    have hrest := ih (handleEvent now cs e).1
      (fun x hx => h x (List.mem_cons_of_mem e hx))
    have hstep : runEvents now cs (e :: rest) =
        runEvents now (handleEvent now cs e).1 rest := by
      simp [runEvents, he.1]
    rw [hstep]
    exact ⟨hrest.1, hrest.2.1.trans he.2.1, hrest.2.2.trans he.2.2⟩

/-- C10: a stream that ends without any terminal `done` or `error` event
leaves the session stuck — loading remains true so every subsequent send is
a no-op, no `model` message is committed (the accumulated delta content is
never added to the transcript), and the optimistic user message remains. -/
theorem truncated_stream_leaves_loading (now : Nat) (s : SessionState)
    (content : String) (events : List ProtocolEvent) (h1 : s.isLoading = false)
    (h2 : ∀ e ∈ events, isTerminal e = false) :
    (sendMessage now s content (Transport.stream events)).isLoading = true
    ∧ (sendMessage now s content (Transport.stream events)).messages
      = s.messages ++ [Message.mk "user" content]
    ∧ (∀ (now' : Nat) (content' : String) (t' : Transport),
        sendMessage now' (sendMessage now s content (Transport.stream events))
          content' t'
        = sendMessage now s content (Transport.stream events)) := by
  have hrun := nonterminal_run now events
    ⟨⟨s.conversations, s.messages ++ [Message.mk "user" content], true, "",
      s.currentConversationId, s.storage, s.toasts, s.requests + 1⟩,
      s.currentConversationId, ""⟩ h2
  have hload : (sendMessage now s content
      (Transport.stream events)).isLoading = true := by
    simp [sendMessage, h1, hrun.1, hrun.2.2]
  refine ⟨hload, ?_, ?_⟩
  · simp [sendMessage, h1, hrun.1, hrun.2.1]
  · intro now' content' t'
    exact sendMessage_loading_skip now' _ content' t' hload

theorem truncated_stream_leaves_loading_witness :
    (sendMessage 0 (⟨[], [], false, "", none,
        ⟨StoredBlob.absent, false⟩, 0, 0⟩ : SessionState) "hi"
        (Transport.stream [ProtocolEvent.delta "par"])).isLoading = true
    ∧ (sendMessage 0 (⟨[], [], false, "", none,
        ⟨StoredBlob.absent, false⟩, 0, 0⟩ : SessionState) "hi"
        (Transport.stream [ProtocolEvent.delta "par"])).messages
      = ([] : List Message) ++ [Message.mk "user" "hi"]
    ∧ (∀ (now' : Nat) (content' : String) (t' : Transport),
        sendMessage now' (sendMessage 0 (⟨[], [], false, "", none,
            ⟨StoredBlob.absent, false⟩, 0, 0⟩ : SessionState) "hi"
            (Transport.stream [ProtocolEvent.delta "par"])) content' t'
        = sendMessage 0 (⟨[], [], false, "", none,
            ⟨StoredBlob.absent, false⟩, 0, 0⟩ : SessionState) "hi"
            (Transport.stream [ProtocolEvent.delta "par"])) :=
  truncated_stream_leaves_loading 0 _ "hi" [ProtocolEvent.delta "par"] rfl
    (by decide)

end Chat
